import Mathlib

/-!
Verification of the task-store core of a console todo application
(`todo_app.py`): the `Task` record, the `TodoManager` operations
(`add_task`, `update_task`, `delete_task`, `get_task_by_id`,
`list_tasks`, `toggle_task_status`) and the JSON persistence codec
(`Task.to_dict`, `Task.from_dict`, `save_tasks`, `load_tasks`).

The Python code stores whatever a parsed JSON file contains verbatim in
task fields, so task fields and `next_id` are modelled as JSON values.
Python exceptions are modelled with an explicit `PyExc` type; every
operation returns the post-state together with `Except PyExc α`, because
Python mutates objects in place before an exception propagates.
Integer-valued JSON numbers are modelled; floats are out of scope.
The interactive menu loop is the presentation layer and is outside the
verified core.
-/

namespace TodoApp

/-- JSON values as produced by `json.load` (numbers restricted to
integers, which is all this application ever writes). -/
inductive Json where
  | null
  | bool (b : Bool)
  | num (n : Int)
  | str (s : String)
  | arr (elems : List Json)
  | obj (fields : List (String × Json))
deriving Repr

/-- Python exceptions relevant to `todo_app.py`.  `load_tasks` catches
`json.JSONDecodeError` and `KeyError` only; `TypeError` and
`AttributeError` propagate to the caller.  The manager raises
`ValueError` with a message (quotes inside the original messages are
elided). -/
inductive PyExc where
  | valueError (msg : String)
  | keyError (key : String)
  | typeError
  | attributeError
  | jsonDecodeError
deriving Repr, DecidableEq

/-- The whitespace set of Python `str.strip()` (ASCII part; the rare
further unicode whitespace is out of scope). -/
def pyIsSpace (c : Char) : Bool :=
  c = ' ' || c = '\t' || c = '\n' || c = '\r' || c = '\x0b' || c = '\x0c'

/-- Python `s.strip()`: remove leading and trailing whitespace. -/
def pyStrip (s : String) : String :=
  ⟨((s.data.dropWhile pyIsSpace).reverse.dropWhile pyIsSpace).reverse⟩

/-- Python `json_value == some_int` (an `int` compares equal to an equal
`int`, and `True`/`False` compare equal to `1`/`0`; everything else is
unequal). -/
def Json.pyEqInt : Json → Int → Bool
  | .num m, n => m == n
  | .bool b, n => (if b then (1 : Int) else 0) == n
  | _, _ => false

/-- Python `json_value == some_str` (only equal strings are equal). -/
def Json.pyEqStr : Json → String → Bool
  | .str t, s => t == s
  | _, _ => false

/-- Python `data[key]`: dictionary lookup, `KeyError` when the key is
absent, `TypeError` when `data` is not subscriptable by a string. -/
def Json.getItem : Json → String → Except PyExc Json
  | .obj kvs, k =>
      match kvs.lookup k with
      | some v => .ok v
      | none => .error (.keyError k)
  | _, _ => .error .typeError

/-- Python `data.get(key, default)`: only dictionaries have `.get`;
every other value raises `AttributeError`. -/
def Json.pyGet : Json → String → Json → Except PyExc Json
  | .obj kvs, k, dflt =>
      match kvs.lookup k with
      | some v => .ok v
      | none => .ok dflt
  | _, _, _ => .error .attributeError

/-- A task as held in memory: the five fields of `Task.__init__`.
Fields are JSON values because `Task.from_dict` stores the file values
verbatim, with no type check. -/
structure Task where
  id : Json
  title : Json
  description : Json
  status : Json
  created_at : Json
deriving Repr

/-- `Task.to_dict`: the five-field dictionary used for serialization. -/
def Task.to_dict (t : Task) : Json :=
  .obj [("id", t.id), ("title", t.title), ("description", t.description),
        ("status", t.status), ("created_at", t.created_at)]

/-- `Task.from_dict`: reads the five keys in the order the Python code
does and stores the values verbatim.  A missing key gives `KeyError`;
a non-dictionary argument gives `TypeError`.  (The transient
`datetime.now()` stamp of `Task.__init__` is immediately overwritten by
the stored `created_at`, so it is not modelled.) -/
def Task.from_dict (data : Json) : Except PyExc Task := do
  let i ← data.getItem "id"
  let t ← data.getItem "title"
  let d ← data.getItem "description"
  let s ← data.getItem "status"
  let c ← data.getItem "created_at"
  pure { id := i, title := t, description := d, status := s, created_at := c }

/-- The manager state: `storage_file`, `tasks`, `next_id`
(`next_id` is a JSON value because `load_tasks` stores the file value
verbatim). -/
structure TodoManager where
  storage_file : String
  tasks : List Task
  next_id : Json
deriving Repr

/-- State of the storage file at one path: missing, present but not
valid JSON (`json.load` raises `JSONDecodeError`), or present and
parsed to a JSON value. -/
inductive FileContent where
  | absent
  | invalidJson (raw : String)
  | parsed (data : Json)
deriving Repr

/-- The file system: the content found at each path. -/
def FS : Type := String → FileContent

/-- The fresh manager as built by `TodoManager.__init__` before
`load_tasks` runs: empty task list, `next_id = 1`. -/
def freshManager (storage_file : String) : TodoManager :=
  { storage_file := storage_file, tasks := [], next_id := .num 1 }

/-- Error messages of the `ValueError`s raised by the manager. -/
def emptyTitleMsg : String := "Task title cannot be empty"

def notFoundMsg (task_id : Int) : String :=
  "Task with ID " ++ toString task_id ++ " not found"

def invalidStatusMsg : String := "Status must be pending or completed"

/-- `TodoManager.get_task_by_id`: first task whose `id` compares equal
to the given integer, or `None`. -/
def get_task_by_id (m : TodoManager) (task_id : Int) : Option Task :=
  m.tasks.find? (fun t => t.id.pyEqInt task_id)

/-- `TodoManager.list_tasks`: all tasks, or those with the given status
when the filter is truthy (Python treats the empty string as falsy). -/
def list_tasks (m : TodoManager) (status_filter : Option String) : List Task :=
  match status_filter with
  | some f => if f.isEmpty then m.tasks else m.tasks.filter (fun t => t.status.pyEqStr f)
  | none => m.tasks

/-- `TodoManager.add_task`: reject a title that strips to empty, else
append a fresh pending task with `id = next_id` and advance `next_id`.
The timestamp `datetime.now().isoformat()` is passed in as `now`.
When `next_id` is not a number, the task is appended (with the verbatim
`next_id` as its id) and then `self.next_id += 1` raises `TypeError`;
Python booleans support `+ 1` as integers. -/
def add_task (m : TodoManager) (title description now : String) :
    TodoManager × Except PyExc Task :=
  if pyStrip title = "" then
    (m, .error (.valueError emptyTitleMsg))
  else
    let task : Task :=
      { id := m.next_id, title := .str (pyStrip title), description := .str (pyStrip description),
        status := .str "pending", created_at := .str now }
    let m1 := { m with tasks := m.tasks ++ [task] }
    match m.next_id with
    | .num n => ({ m1 with next_id := .num (n + 1) }, .ok task)
    | .bool b => ({ m1 with next_id := .num ((if b then 1 else 0) + 1) }, .ok task)
    | _ => (m1, .error .typeError)

/-- Replace the first task whose `id` compares equal to `task_id` by
its image under `f` (models in-place mutation of the object found by
`get_task_by_id`). -/
def mutateFirst (ts : List Task) (task_id : Int) (f : Task → Task) : List Task :=
  match ts with
  | [] => []
  | t :: rest =>
      if t.id.pyEqInt task_id then f t :: rest
      else t :: mutateFirst rest task_id f

/-- The in-place field assignments of `update_task` that happen before
the status check: `task.title = title.strip()` when a title is given,
then `task.description = description.strip()` when a description is
given. -/
def applyTitleDesc (title description : Option String) (t : Task) : Task :=
  let t1 :=
    match title with
    | some s => { t with title := .str (pyStrip s) }
    | none => t
  match description with
  | some s => { t1 with description := .str (pyStrip s) }
  | none => t1

/-- `TodoManager.update_task`: `ValueError` when the id is absent;
otherwise the title and description assignments are performed first,
and only then is the status validated, so an invalid status raises
after those fields have already been mutated. -/
def update_task (m : TodoManager) (task_id : Int)
    (title description status : Option String) :
    TodoManager × Except PyExc Unit :=
  match get_task_by_id m task_id with
  | none => (m, .error (.valueError (notFoundMsg task_id)))
  | some _ =>
      let m1 := { m with tasks := mutateFirst m.tasks task_id (applyTitleDesc title description) }
      match status with
      | some s =>
          if s = "pending" ∨ s = "completed" then
            ({ m1 with
                tasks := mutateFirst m1.tasks task_id (fun t => { t with status := .str s }) },
             .ok ())
          else (m1, .error (.valueError invalidStatusMsg))
      | none => (m1, .ok ())

/-- Remove the first task whose `id` compares equal to `task_id`
(`self.tasks.remove(task)` where `task` is the first such task). -/
def removeFirst (ts : List Task) (task_id : Int) : List Task :=
  match ts with
  | [] => []
  | t :: rest =>
      if t.id.pyEqInt task_id then rest
      else t :: removeFirst rest task_id

/-- `TodoManager.delete_task`. -/
def delete_task (m : TodoManager) (task_id : Int) :
    TodoManager × Except PyExc Unit :=
  match get_task_by_id m task_id with
  | none => (m, .error (.valueError (notFoundMsg task_id)))
  | some _ => ({ m with tasks := removeFirst m.tasks task_id }, .ok ())

/-- The status rewrite of `toggle_task_status`:
`"completed" if task.status == "pending" else "pending"`. -/
def toggleStatus (t : Task) : Task :=
  { t with status := if t.status.pyEqStr "pending" then .str "completed" else .str "pending" }

/-- `TodoManager.toggle_task_status`: `ValueError` when the id is
absent; otherwise the status is rewritten in place.  The Python
function body has no `return` statement, so the call evaluates to
`None`, modelled as the payload `Option String` being `none`. -/
def toggle_task_status (m : TodoManager) (task_id : Int) :
    TodoManager × Except PyExc (Option String) :=
  match get_task_by_id m task_id with
  | none => (m, .error (.valueError (notFoundMsg task_id)))
  | some _ => ({ m with tasks := mutateFirst m.tasks task_id toggleStatus }, .ok none)

/-- The document written by `save_tasks`:
`{"tasks": [task.to_dict() ...], "next_id": next_id}`. -/
def TodoManager.serializeData (m : TodoManager) : Json :=
  .obj [("tasks", .arr (m.tasks.map Task.to_dict)), ("next_id", m.next_id)]

/-- `TodoManager.save_tasks`: overwrite the storage file with the
serialized state (a write failure is caught and printed, leaving the
old content; the success path is modelled). -/
def save_tasks (fs : FS) (m : TodoManager) : FS :=
  fun p => if p = m.storage_file then .parsed m.serializeData else fs p

/-- The list comprehension
`[Task.from_dict(td) for td in tasks_value]`: iterating a JSON array
visits its elements; iterating a string visits its characters and a
dictionary its keys, and `from_dict` then raises `TypeError` on the
first one (so the empty string and empty dictionary yield `[]`);
numbers, booleans and `None` are not iterable (`TypeError`). -/
def fromDictList : List Json → Except PyExc (List Task)
  | [] => .ok []
  | d :: rest => do
      let t ← Task.from_dict d
      let ts ← fromDictList rest
      pure (t :: ts)

def buildTasks : Json → Except PyExc (List Task)
  | .arr elems => fromDictList elems
  | .str s => if s.isEmpty then .ok [] else .error .typeError
  | .obj kvs => if kvs.isEmpty then .ok [] else .error .typeError
  | _ => .error .typeError

/-- `TodoManager.load_tasks`.  A missing file, a `JSONDecodeError` or a
`KeyError` yield the fresh-start state (`[]`, `next_id = 1`); an
`AttributeError` (top-level value not a dictionary) or a `TypeError`
(tasks value not iterable, or a task entry not subscriptable)
propagates to the caller with the state not yet assigned. -/
def load_tasks (fs : FS) (m : TodoManager) :
    TodoManager × Except PyExc Unit :=
  match fs m.storage_file with
  | .absent => ({ m with tasks := [], next_id := .num 1 }, .ok ())
  | .invalidJson _ => ({ m with tasks := [], next_id := .num 1 }, .ok ())
  | .parsed data =>
      match data.pyGet "tasks" (.arr []) with
      | .error e => (m, .error e)
      | .ok tasksVal =>
          match buildTasks tasksVal with
          | .error (.keyError _) => ({ m with tasks := [], next_id := .num 1 }, .ok ())
          | .error e => (m, .error e)
          | .ok ts =>
              match data.pyGet "next_id" (.num 1) with
              | .ok nv => ({ m with tasks := ts, next_id := nv }, .ok ())
              | .error e => ({ m with tasks := ts }, .error e)

/-- The outcome of evaluating the tasks list comprehension of
`load_tasks` on a parsed document (the part of `load_tasks` whose
exceptions the `try` block may catch). -/
def tasksFieldResult (data : Json) : Except PyExc (List Task) :=
  match data.pyGet "tasks" (.arr []) with
  | .ok tasksVal => buildTasks tasksVal
  | .error e => .error e

/-- File contents on which `load_tasks` takes a fresh-start branch: a
missing file, a file `json.load` rejects, or a parsed document whose
task reconstruction raises `KeyError` (the one reconstruction error the
`except` clause catches). -/
def LoadFallbackCase : FileContent → Prop
  | .absent => True
  | .invalidJson _ => True
  | .parsed data => ∃ k, tasksFieldResult data = .error (.keyError k)

/-- One call of the presentation layer into the manager (the timestamp
of an add is carried in the operation). -/
inductive Op where
  | add (title description now : String)
  | update (task_id : Int) (title description status : Option String)
  | delete (task_id : Int)
  | toggle (task_id : Int)

/-- The manager state after one operation (the state is kept whether or
not the operation raised, as in Python). -/
def applyOp (m : TodoManager) : Op → TodoManager
  | .add title description now => (add_task m title description now).1
  | .update task_id title description status => (update_task m task_id title description status).1
  | .delete task_id => (delete_task m task_id).1
  | .toggle task_id => (toggle_task_status m task_id).1

/-- The manager state after a sequence of operations. -/
def run (m : TodoManager) : List Op → TodoManager
  | [] => m
  | op :: ops => run (applyOp m op) ops

/-- The ids of the tasks returned by the successful `add_task` calls of
an operation sequence, in order. -/
def emittedIds (m : TodoManager) : List Op → List Json
  | [] => []
  | op :: ops =>
      match op with
      | .add title description now =>
          match (add_task m title description now).2 with
          | .ok task => task.id :: emittedIds (applyOp m op) ops
          | .error _ => emittedIds (applyOp m op) ops
      | _ => emittedIds (applyOp m op) ops

/-- Strict order on JSON values: both are numbers and the first is
smaller. -/
def jsonLtB : Json → Json → Bool
  | .num a, .num b => a < b
  | _, _ => false

def JsonLt (a b : Json) : Prop := jsonLtB a b = true

/-- The id-counter invariant of the specification: `next_id` is the
number `n` and every task id in the store is a number below `n`. -/
def InvN (m : TodoManager) (n : Int) : Prop :=
  m.next_id = Json.num n ∧ ∀ t ∈ m.tasks, ∃ k : Int, t.id = Json.num k ∧ k < n

instance (a b : Json) : Decidable (JsonLt a b) :=
  inferInstanceAs (Decidable (jsonLtB a b = true))

/-- A pending task with id 1, used as concrete input in counterexamples
and witnesses. -/
def sampleTask (title : String) : Task :=
  { id := .num 1, title := .str title, description := .str "d",
    status := .str "pending", created_at := .str "2024-01-01T00:00:00" }

/-- A one-task store holding `sampleTask title` with `next_id = 2`. -/
def mgrWithTask (storage_file title : String) : TodoManager :=
  { storage_file := storage_file, tasks := [sampleTask title], next_id := .num 2 }

def c1M : TodoManager := mgrWithTask "tasks.json" "Old"

def c2M : TodoManager := mgrWithTask "tasks.json" "Old"

def c4M : TodoManager := mgrWithTask "tasks.json" "A"

def c7M : TodoManager := mgrWithTask "tasks.json" "A"

def c8M : TodoManager := mgrWithTask "tasks.json" "B"

def c10M : TodoManager := mgrWithTask "tasks.json" "A"

/-- A parseable storage file whose single task has id 5 while
`next_id` is 1. -/
def c3FS : FS := fun _ =>
  .parsed (.obj [("tasks", .arr [.obj [("id", .num 5), ("title", .str "t"),
    ("description", .str ""), ("status", .str "pending"),
    ("created_at", .str "2024-01-01T00:00:00")]]), ("next_id", .num 1)])

def c3Loaded : TodoManager := (load_tasks c3FS (freshManager "tasks.json")).1

/-- A parseable storage file whose single task has the status `weird`,
outside the documented enum. -/
def c8FS : FS := fun _ =>
  .parsed (.obj [("tasks", .arr [.obj [("id", .num 1), ("title", .str "t"),
    ("description", .str ""), ("status", .str "weird"),
    ("created_at", .str "2024-01-01T00:00:00")]]), ("next_id", .num 2)])

def c8Loaded : TodoManager := (load_tasks c8FS (freshManager "tasks.json")).1

/-- A task whose status is the out-of-enum string `weird`, exactly as
`load_tasks` would reconstruct it from a file. -/
def c9Task : Task :=
  { id := .num 1, title := .str "t", description := .str "",
    status := .str "weird", created_at := .str "2024-01-01T00:00:00" }

def c9M : TodoManager :=
  { storage_file := "tasks.json", tasks := [c9Task], next_id := .num 2 }

/-- A storage file whose top-level JSON value is an array, not an
object. -/
def c6ArrFS : FS := fun _ => .parsed (.arr [])

/-- A parseable object document whose single task entry is missing the
`title` key (and the other keys after it). -/
def c6Doc : Json :=
  .obj [("tasks", .arr [.obj [("id", .num 5)]]), ("next_id", .num 9)]

def c6DocFS : FS := fun _ => .parsed c6Doc

/-- Reconstructing a serialized task yields the task back unchanged. -/
theorem from_dict_to_dict (t : Task) : Task.from_dict t.to_dict = .ok t := rfl

/-- Reconstructing a serialized task list yields the list back. -/
theorem fromDictList_map_to_dict (ts : List Task) :
    fromDictList (ts.map Task.to_dict) = .ok ts := by
  induction ts with
  | nil => rfl
  | cons t rest ih =>
      simp [fromDictList, ih]
      rfl

/-- `mutateFirst` with a pointwise-identity function changes nothing. -/
theorem mutateFirst_eq_self (ts : List Task) (i : Int) (f : Task → Task)
    (hf : ∀ t, f t = t) : mutateFirst ts i f = ts := by
  induction ts with
  | nil => rfl
  | cons t rest ih =>
      by_cases h : t.id.pyEqInt i
      · simp [mutateFirst, h, hf]
      · simp [mutateFirst, h, ih]

/-- A field projection untouched by the mutation function is untouched
by `mutateFirst`. -/
theorem map_mutateFirst {α : Type} (g : Task → α) (ts : List Task) (i : Int)
    (f : Task → Task) (hf : ∀ t, g (f t) = g t) :
    (mutateFirst ts i f).map g = ts.map g := by
  induction ts with
  | nil => rfl
  | cons t rest ih =>
      by_cases h : t.id.pyEqInt i
      · simp [mutateFirst, h, hf]
      · simp [mutateFirst, h, ih]

/-- Looking up an id after `mutateFirst` on that id finds the mutated
task, provided the mutation preserves ids. -/
theorem find?_mutateFirst (ts : List Task) (i : Int) (f : Task → Task)
    (hf : ∀ t, (f t).id = t.id) :
    (mutateFirst ts i f).find? (fun t => t.id.pyEqInt i)
      = (ts.find? (fun t => t.id.pyEqInt i)).map f := by
  induction ts with
  | nil => rfl
  | cons t rest ih =>
      by_cases h : t.id.pyEqInt i
      · simp [mutateFirst, h, List.find?_cons_of_pos, hf]
      · simp [mutateFirst, h, List.find?_cons_of_neg, ih]

/-- Every task after `mutateFirst` has the id of some task before it,
provided the mutation preserves ids. -/
theorem mem_mutateFirst (ts : List Task) (i : Int) (f : Task → Task)
    (hf : ∀ t, (f t).id = t.id) :
    ∀ t' ∈ mutateFirst ts i f, ∃ t ∈ ts, t'.id = t.id := by
  intro t' ht'
  have hmap := map_mutateFirst Task.id ts i f hf
  have hmem : t'.id ∈ (mutateFirst ts i f).map Task.id := List.mem_map_of_mem _ ht'
  rw [hmap] at hmem
  obtain ⟨t, ht, he⟩ := List.mem_map.mp hmem
  exact ⟨t, ht, he.symm⟩

/-- `removeFirst` only removes. -/
theorem mem_removeFirst (ts : List Task) (i : Int) :
    ∀ t' ∈ removeFirst ts i, t' ∈ ts := by
  induction ts with
  | nil => intro t' h; exact absurd h (by simp [removeFirst])
  | cons t rest ih =>
      intro t' h
      by_cases hc : t.id.pyEqInt i
      · simp [removeFirst, hc] at h
        exact List.mem_cons_of_mem _ h
      · simp only [removeFirst, hc, if_neg, ite_false] at h
        rcases List.mem_cons.mp h with h1 | h2
        · exact h1 ▸ List.mem_cons_self _ _
        · exact List.mem_cons_of_mem _ (ih t' h2)

/-- Looking up a present id after a toggle finds the task with its
status rewritten. -/
theorem get_task_by_id_toggle (m : TodoManager) (i : Int) (t : Task)
    (h : get_task_by_id m i = some t) :
    get_task_by_id (toggle_task_status m i).1 i = some (toggleStatus t) := by
  unfold toggle_task_status
  rw [h]
  simp only [get_task_by_id] at h ⊢
  rw [find?_mutateFirst m.tasks i toggleStatus (fun t => rfl), h]
  rfl

/-- C5, confirmed: for every store state — any storage path, any task
sequence (any field values) and any `next_id` — `save_tasks` followed
by `load_tasks` on the same path reproduces exactly the same task
sequence (ids, titles, descriptions, statuses and `created_at`
timestamps, in order) and the same `next_id`, and raises nothing. -/
theorem save_load_roundtrip (fs : FS) (m : TodoManager) :
    load_tasks (save_tasks fs m) m = (m, .ok ()) := by
  simp [load_tasks, save_tasks, TodoManager.serializeData, Json.pyGet, buildTasks,
    fromDictList_map_to_dict, List.lookup]

/-- A successful `add_task` implies the title was non-blank, and pins
down every field of the returned task. -/
theorem add_task_ok_fields (m : TodoManager) (title description now : String) (task : Task)
    (h : (add_task m title description now).2 = .ok task) :
    pyStrip title ≠ "" ∧
      task = { id := m.next_id, title := .str (pyStrip title),
               description := .str (pyStrip description), status := .str "pending",
               created_at := .str now } := by
  by_cases hc : pyStrip title = ""
  · simp [add_task, hc] at h
  · refine ⟨hc, ?_⟩
    cases hnid : m.next_id <;> simp [add_task, hc, hnid] at h <;> exact h.symm

/-- Looking up a present id after an `update_task` with no status
argument finds the task with the title and description assignments
applied. -/
theorem get_task_by_id_update_td (m : TodoManager) (i : Int) (t0 : Task)
    (tt dd : Option String) (h : get_task_by_id m i = some t0) :
    get_task_by_id (update_task m i tt dd none).1 i = some (applyTitleDesc tt dd t0) := by
  unfold update_task
  rw [h]
  simp only [get_task_by_id] at h ⊢
  rw [find?_mutateFirst m.tasks i (applyTitleDesc tt dd)
      (fun t => by cases tt <;> cases dd <;> rfl), h]
  rfl

/-- `dict.get` never raises `KeyError` (it returns the default). -/
theorem pyGet_no_keyError (j : Json) (key : String) (d : Json) (k : String) :
    j.pyGet key d ≠ .error (.keyError k) := by
  cases j <;> simp [Json.pyGet]
  rcases List.lookup key _ with _ | v <;> simp

/-- C1, counterexample: on a store whose task 1 has title `Old`,
`update(1, title="New", status="bogus")` raises the invalid-status
`ValueError` and nevertheless leaves the title changed to `New` — the
title assignment happens before the status check, refuting the claim
that no field is modified regardless of the other arguments. -/
theorem update_invalid_status_mutates_title :
    (update_task c1M 1 (some "New") none (some "bogus")).2
        = Except.error (PyExc.valueError invalidStatusMsg)
    ∧ c1M.tasks.map Task.title = [Json.str "Old"]
    ∧ (update_task c1M 1 (some "New") none (some "bogus")).1.tasks.map Task.title
        = [Json.str "New"]
    ∧ Json.str "New" ≠ Json.str "Old" :=
  ⟨rfl, rfl, rfl, by simp⟩

/-- C1, amended: for every task id present in the store, `update_task`
with a status outside the pair pending and completed raises the
invalid-status `ValueError`, never changes any status field nor
`next_id`, and — when no title and no description argument is supplied —
changes nothing at all; a supplied title or description, however, is
already assigned to the task before the status check raises. -/
theorem update_invalid_status_rejected_fields_applied (m : TodoManager) (i : Int)
    (s : String) (tt dd : Option String)
    (hp : (get_task_by_id m i).isSome)
    (h1 : s ≠ "pending") (h2 : s ≠ "completed") :
    (update_task m i tt dd (some s)).2 = Except.error (PyExc.valueError invalidStatusMsg)
    ∧ (update_task m i tt dd (some s)).1.tasks.map Task.status = m.tasks.map Task.status
    ∧ (update_task m i tt dd (some s)).1.next_id = m.next_id
    ∧ (update_task m i none none (some s)).1 = m := by
  obtain ⟨t0, ht⟩ := Option.isSome_iff_exists.mp hp
  have hcond : ¬ (s = "pending" ∨ s = "completed") := by
    rintro (h | h)
    · exact h1 h
    · exact h2 h
  refine ⟨?_, ?_, ?_, ?_⟩
  · simp [update_task, ht, hcond]
  · simp only [update_task, ht, hcond, if_neg, ite_false]
    exact map_mutateFirst Task.status m.tasks i (applyTitleDesc tt dd)
      (fun t => by cases tt <;> cases dd <;> rfl)
  · simp [update_task, ht, hcond]
  · simp only [update_task, ht, hcond, if_neg, ite_false]
    rw [mutateFirst_eq_self m.tasks i (applyTitleDesc none none) (fun t => rfl)]

/-- C1, witness: the amended theorem applied to the concrete store
`c1M`, id 1 and status `bogus`. -/
theorem update_invalid_status_witness :
    (get_task_by_id c1M 1).isSome
    ∧ (update_task c1M 1 (some "New") none (some "bogus")).2
        = Except.error (PyExc.valueError invalidStatusMsg)
    ∧ (update_task c1M 1 none none (some "bogus")).1 = c1M := by
  refine ⟨rfl, ?_, ?_⟩
  · exact (update_invalid_status_rejected_fields_applied c1M 1 "bogus" (some "New") none
      rfl (by decide) (by decide)).1
  · exact (update_invalid_status_rejected_fields_applied c1M 1 "bogus" (some "New") none
      rfl (by decide) (by decide)).2.2.2

/-- C2, counterexample: on a store whose task 1 has title `Old`,
`update(1, title="   ")` succeeds — no `ValueError` is raised — and
stores the empty title, refuting the claimed validation and the claimed
invariant after update. -/
theorem update_empty_title_succeeds :
    (update_task c2M 1 (some "   ") none none).2 = Except.ok ()
    ∧ (update_task c2M 1 (some "   ") none none).1.tasks.map Task.title = [Json.str ""]
    ∧ (Except.ok () : Except PyExc Unit) ≠ Except.error (PyExc.valueError emptyTitleMsg) :=
  ⟨rfl, rfl, by simp⟩

/-- C2, amended: `update_task` performs no title validation — for every
task id present it accepts any title, including one that strips to
empty, succeeds, and stores the stripped title verbatim; the
non-blank-title invariant holds after successful creation only, because
`add_task` is the sole operation that rejects blank titles. -/
theorem update_title_unvalidated_create_validates (m : TodoManager) (i : Int) (t0 : Task)
    (s d now : String) (h : get_task_by_id m i = some t0) :
    (update_task m i (some s) none none).2 = Except.ok ()
    ∧ get_task_by_id (update_task m i (some s) none none).1 i
        = some { t0 with title := Json.str (pyStrip s) }
    ∧ (∀ task, (add_task m s d now).2 = Except.ok task →
        task.title = Json.str (pyStrip s) ∧ pyStrip s ≠ "") := by
  refine ⟨?_, ?_, ?_⟩
  · simp [update_task, h]
  · exact get_task_by_id_update_td m i t0 (some s) none h
  · intro task htask
    obtain ⟨hne, hfields⟩ := add_task_ok_fields m s d now task htask
    exact ⟨by rw [hfields], hne⟩

/-- C2, witness: the amended theorem applied to the concrete store
`c2M`, id 1 and the whitespace-only title. -/
theorem update_title_unvalidated_witness :
    get_task_by_id c2M 1 = some (sampleTask "Old")
    ∧ (update_task c2M 1 (some "   ") none none).2 = Except.ok ()
    ∧ get_task_by_id (update_task c2M 1 (some "   ") none none).1 1
        = some { sampleTask "Old" with title := Json.str "" } := by
  have h := update_title_unvalidated_create_validates c2M 1 (sampleTask "Old") "   " "x" "t0" rfl
  exact ⟨rfl, h.1, h.2.1⟩

/-- C7, confirmed: for every store state, `add_task` with a title that
strips to empty — in particular the empty and the whitespace-only
title — fails with the empty-title `ValueError` and returns the store
completely unchanged (same task sequence, same `next_id`). -/
theorem create_empty_title_rejected (m : TodoManager) (title d now : String)
    (h : pyStrip title = "") :
    add_task m title d now = (m, Except.error (PyExc.valueError emptyTitleMsg)) := by
  simp [add_task, h]

/-- C7, witness: the theorem applied to the concrete store `c7M` with
the titles given in the claim. -/
theorem create_empty_title_witness :
    pyStrip "   " = "" ∧ pyStrip "" = ""
    ∧ add_task c7M "   " "" "t0" = (c7M, Except.error (PyExc.valueError emptyTitleMsg))
    ∧ add_task c7M "" "x" "t0" = (c7M, Except.error (PyExc.valueError emptyTitleMsg)) :=
  ⟨rfl, rfl, create_empty_title_rejected c7M "   " "" "t0" rfl,
   create_empty_title_rejected c7M "" "x" "t0" rfl⟩

/-- C10, confirmed: both `add_task` and `update_task` store the
description argument with leading and trailing whitespace stripped —
the stored description is always the stripped text, never the raw
text. -/
theorem description_stored_stripped (m : TodoManager) (i : Int) (t0 : Task)
    (ttl d now : String) (h : get_task_by_id m i = some t0) :
    (∀ task, (add_task m ttl d now).2 = Except.ok task →
        task.description = Json.str (pyStrip d))
    ∧ get_task_by_id (update_task m i none (some d) none).1 i
        = some { t0 with description := Json.str (pyStrip d) } := by
  refine ⟨?_, ?_⟩
  · intro task htask
    obtain ⟨_, hfields⟩ := add_task_ok_fields m ttl d now task htask
    rw [hfields]
  · exact get_task_by_id_update_td m i t0 none (some d) h

/-- C10, witness: the theorem applied to the concrete store `c10M` with
a description carrying surrounding whitespace. -/
theorem description_stored_stripped_witness :
    get_task_by_id c10M 1 = some (sampleTask "A")
    ∧ get_task_by_id (update_task c10M 1 none (some "  note  ") none).1 1
        = some { sampleTask "A" with description := Json.str "note" }
    ∧ (∀ task, (add_task c10M "T" "  note  " "t0").2 = Except.ok task →
        task.description = Json.str "note") := by
  have h := description_stored_stripped c10M 1 (sampleTask "A") "T" "  note  " "t0" rfl
  exact ⟨rfl, h.2, h.1⟩

/-- C4, counterexample: toggling the pending task of `c4M` does flip
its stored status to completed, but the call returns `None` — not the
new status — refuting the claim that the new status is returned to the
caller. -/
theorem toggle_does_not_return_status :
    (toggle_task_status c4M 1).1.tasks.map Task.status = [Json.str "completed"]
    ∧ (toggle_task_status c4M 1).2 = Except.ok none
    ∧ (toggle_task_status c4M 1).2 ≠ Except.ok (some "completed") :=
  ⟨rfl, rfl, fun h => Option.noConfusion (Except.ok.inj h)⟩

/-- C4, amended: for every task id present in the store,
`toggle_task_status` flips the status in place — pending becomes
completed, completed becomes pending — and returns `None`; the new
status is observable through `get_task_by_id`, not through the return
value. -/
theorem toggle_flips_status_returns_none (m : TodoManager) (i : Int) (t : Task)
    (h : get_task_by_id m i = some t) :
    (toggle_task_status m i).2 = Except.ok none
    ∧ (t.status = Json.str "pending" →
        get_task_by_id (toggle_task_status m i).1 i
          = some { t with status := Json.str "completed" })
    ∧ (t.status = Json.str "completed" →
        get_task_by_id (toggle_task_status m i).1 i
          = some { t with status := Json.str "pending" }) := by
  refine ⟨?_, ?_, ?_⟩
  · simp [toggle_task_status, h]
  · intro hs
    rw [get_task_by_id_toggle m i t h]
    simp [toggleStatus, hs, Json.pyEqStr]
  · intro hs
    rw [get_task_by_id_toggle m i t h]
    simp [toggleStatus, hs, Json.pyEqStr]

/-- C4, witness: the amended theorem applied to the concrete store
`c4M` and its pending task 1. -/
theorem toggle_flips_status_witness :
    get_task_by_id c4M 1 = some (sampleTask "A")
    ∧ (toggle_task_status c4M 1).2 = Except.ok none
    ∧ get_task_by_id (toggle_task_status c4M 1).1 1
        = some { sampleTask "A" with status := Json.str "completed" } := by
  have h := toggle_flips_status_returns_none c4M 1 (sampleTask "A") rfl
  exact ⟨rfl, h.1, h.2.1 rfl⟩

/-- C8, counterexample: `load_tasks` stores statuses verbatim, so a
loaded task can carry the status `weird`; toggling it twice yields
pending and then completed, not the original status, refuting the
claim for every task present in a store. -/
theorem toggle_twice_weird_status_not_restored :
    (load_tasks c8FS (freshManager "tasks.json")).2 = Except.ok ()
    ∧ c8Loaded.tasks.map Task.status = [Json.str "weird"]
    ∧ (toggle_task_status (toggle_task_status c8Loaded 1).1 1).1.tasks.map Task.status
        = [Json.str "completed"]
    ∧ Json.str "completed" ≠ Json.str "weird" :=
  ⟨rfl, rfl, rfl, by simp⟩

/-- C8, amended: for every task id present in the store whose status is
one of the two documented enum values, applying `toggle_task_status`
twice in succession returns the task to exactly the status (indeed the
whole task record) it had before the first toggle; for a status outside
the enum, two toggles end at completed instead. -/
theorem toggle_twice_restores_enum_status (m : TodoManager) (i : Int) (t : Task)
    (h : get_task_by_id m i = some t)
    (hs : t.status = Json.str "pending" ∨ t.status = Json.str "completed") :
    get_task_by_id (toggle_task_status (toggle_task_status m i).1 i).1 i = some t := by
  have h1 := get_task_by_id_toggle m i t h
  have h2 := get_task_by_id_toggle (toggle_task_status m i).1 i (toggleStatus t) h1
  rw [h2]
  have hts : toggleStatus (toggleStatus t) = t := by
    rcases hs with hs | hs <;>
      · simp [toggleStatus, hs, Json.pyEqStr]
        rw [← hs]
  rw [hts]

/-- C8, witness: the amended theorem applied to the concrete store
`c8M` and its pending task 1. -/
theorem toggle_twice_witness :
    get_task_by_id c8M 1 = some (sampleTask "B")
    ∧ get_task_by_id (toggle_task_status (toggle_task_status c8M 1).1 1).1 1
        = some (sampleTask "B") :=
  ⟨rfl, toggle_twice_restores_enum_status c8M 1 (sampleTask "B") rfl (Or.inl rfl)⟩

/-- C9, confirmed: for every task id present in the store, one toggle
sets the status to completed exactly when the current status is the
string `pending`, and to pending for every other current status; and
`Task.from_dict` reconstructs every stored field verbatim, so an
out-of-enum status can indeed enter the store by loading. -/
theorem toggle_completed_iff_pending (m : TodoManager) (i : Int) (t : Task)
    (h : get_task_by_id m i = some t) :
    get_task_by_id (toggle_task_status m i).1 i
      = some { t with status := if t.status.pyEqStr "pending"
                                then Json.str "completed" else Json.str "pending" }
    ∧ Task.from_dict (Json.obj [("id", t.id), ("title", t.title),
        ("description", t.description), ("status", t.status),
        ("created_at", t.created_at)]) = Except.ok t :=
  ⟨get_task_by_id_toggle m i t h, rfl⟩

/-- C9, witness: the theorem applied to the concrete store `c9M`, whose
task 1 carries the out-of-enum status `weird`; its first toggle maps it
to pending. -/
theorem toggle_completed_iff_pending_witness :
    get_task_by_id c9M 1 = some c9Task
    ∧ get_task_by_id (toggle_task_status c9M 1).1 1
        = some { c9Task with status := Json.str "pending" } := by
  have h := toggle_completed_iff_pending c9M 1 c9Task rfl
  exact ⟨rfl, h.1⟩

/-- C6, counterexample: a file that exists and parses to a JSON value
that is not an object — here the array `[]` — makes `load_tasks` raise
`AttributeError` (from `data.get`) to the caller instead of falling
back to the fresh-start state, refuting the claim for every unparsable
or ill-structured file. -/
theorem load_nonobject_raises :
    (load_tasks c6ArrFS (freshManager "tasks.json")).2 = Except.error PyExc.attributeError
    ∧ (Except.error PyExc.attributeError : Except PyExc Unit) ≠ Except.ok () :=
  ⟨rfl, by simp⟩

/-- C6, amended: `load_tasks` yields the fresh-start state — empty task
list, `next_id = 1` — without raising, on a missing file, on a file
`json.load` cannot parse, and on a parsed object document whose task
reconstruction hits a missing key (`KeyError`); but a file whose parsed
top-level value is not an object, or whose tasks value is not
iterable as task dictionaries, raises an uncaught `AttributeError` or
`TypeError` to the caller. -/
theorem load_fallback_cases (fs : FS) (m : TodoManager)
    (h : LoadFallbackCase (fs m.storage_file)) :
    load_tasks fs m = ({ m with tasks := [], next_id := Json.num 1 }, Except.ok ()) := by
  rcases hfc : fs m.storage_file with _ | raw | data
  · simp [load_tasks, hfc]
  · simp [load_tasks, hfc]
  · rw [hfc] at h
    obtain ⟨k, hk⟩ := h
    unfold tasksFieldResult at hk
    simp only [load_tasks, hfc]
    cases hg : data.pyGet "tasks" (.arr []) with
    | error e =>
        rw [hg] at hk
        have he : e = PyExc.keyError k := by injection hk
        exact absurd (he ▸ hg) (pyGet_no_keyError data "tasks" (.arr []) k)
    | ok tv =>
        rw [hg] at hk
        have hk2 : buildTasks tv = Except.error (PyExc.keyError k) := hk
        simp [hk2]

/-- C6, witness: the amended theorem applied to a missing file and to
the parseable document `c6Doc` whose task entry lacks the `title`
key. -/
theorem load_fallback_witness :
    LoadFallbackCase ((fun _ => FileContent.absent) (freshManager "tasks.json").storage_file)
    ∧ load_tasks (fun _ => FileContent.absent) (freshManager "tasks.json")
        = ({ freshManager "tasks.json" with tasks := [], next_id := Json.num 1 },
           Except.ok ())
    ∧ LoadFallbackCase (c6DocFS (freshManager "tasks.json").storage_file)
    ∧ load_tasks c6DocFS (freshManager "tasks.json")
        = ({ freshManager "tasks.json" with tasks := [], next_id := Json.num 1 },
           Except.ok ()) :=
  ⟨trivial, load_fallback_cases (fun _ => FileContent.absent) (freshManager "tasks.json") trivial,
   ⟨"title", rfl⟩, load_fallback_cases c6DocFS (freshManager "tasks.json") ⟨"title", rfl⟩⟩

/-- Identical ids under an id-preserving relocation keep the id bound
of the invariant. -/
theorem invN_ids_of_sub (ts ts' : List Task) (n : Int)
    (h : ∀ t ∈ ts, ∃ k : Int, t.id = Json.num k ∧ k < n)
    (hsub : ∀ t' ∈ ts', ∃ t ∈ ts, t'.id = t.id) :
    ∀ t' ∈ ts', ∃ k : Int, t'.id = Json.num k ∧ k < n := by
  intro t' ht'
  obtain ⟨t, ht, he⟩ := hsub t' ht'
  obtain ⟨k, hk, hlt⟩ := h t ht
  exact ⟨k, he.trans hk, hlt⟩

/-- The invariant survives an id-preserving in-place mutation. -/
theorem invN_mutateFirst (m : TodoManager) (n : Int) (i : Int) (f : Task → Task)
    (hf : ∀ t, (f t).id = t.id) (h : InvN m n) :
    InvN { m with tasks := mutateFirst m.tasks i f } n :=
  ⟨h.1, invN_ids_of_sub m.tasks _ n h.2 (mem_mutateFirst m.tasks i f hf)⟩

/-- On an invariant-satisfying store, a non-blank `add_task` succeeds,
returns the task with id `next_id = n`, and reestablishes the
invariant at `n + 1`. -/
theorem invN_add_success (m : TodoManager) (n : Int) (title description now : String)
    (h : InvN m n) (hc : pyStrip title ≠ "") :
    (add_task m title description now).2
        = Except.ok { id := Json.num n, title := Json.str (pyStrip title),
                      description := Json.str (pyStrip description),
                      status := Json.str "pending", created_at := Json.str now }
    ∧ InvN (applyOp m (Op.add title description now)) (n + 1) := by
  obtain ⟨hnid, hids⟩ := h
  refine ⟨by simp [add_task, hc, hnid], ?_, ?_⟩
  · simp [applyOp, add_task, hc, hnid]
  · intro t ht
    simp [applyOp, add_task, hc, hnid] at ht
    rcases ht with ht | ht
    · obtain ⟨k, hk, hlt⟩ := hids t ht
      exact ⟨k, hk, by omega⟩
    · exact ⟨n, by simp [ht], by omega⟩

/-- Every operation preserves the invariant, moving `n` weakly up. -/
theorem invN_applyOp (m : TodoManager) (n : Int) (op : Op) (h : InvN m n) :
    ∃ n2, n ≤ n2 ∧ InvN (applyOp m op) n2 := by
  cases op with
  | add title description now =>
      by_cases hc : pyStrip title = ""
      · exact ⟨n, le_refl n, by simpa [applyOp, add_task, hc] using h⟩
      · exact ⟨n + 1, by omega, (invN_add_success m n title description now h hc).2⟩
  | update i tt dd ss =>
      refine ⟨n, le_refl n, ?_⟩
      show InvN (update_task m i tt dd ss).1 n
      cases hget : get_task_by_id m i with
      | none => simpa [update_task, hget] using h
      | some t0 =>
          have hf1 : ∀ t, (applyTitleDesc tt dd t).id = t.id := fun t => by
            cases tt <;> cases dd <;> rfl
          cases ss with
          | none =>
              simp only [update_task, hget]
              exact invN_mutateFirst m n i _ hf1 h
          | some s =>
              simp only [update_task, hget]
              by_cases hv : s = "pending" ∨ s = "completed"
              · rw [if_pos hv]
                exact invN_mutateFirst _ n i (fun t => { t with status := Json.str s })
                  (fun t => rfl) (invN_mutateFirst m n i _ hf1 h)
              · rw [if_neg hv]
                exact invN_mutateFirst m n i _ hf1 h
  | delete i =>
      refine ⟨n, le_refl n, ?_⟩
      show InvN (delete_task m i).1 n
      cases hget : get_task_by_id m i with
      | none => simpa [delete_task, hget] using h
      | some t0 =>
          simp only [delete_task, hget]
          exact ⟨h.1, invN_ids_of_sub m.tasks _ n h.2
            (fun t' ht' => ⟨t', mem_removeFirst m.tasks i t' ht', rfl⟩)⟩
  | toggle i =>
      refine ⟨n, le_refl n, ?_⟩
      show InvN (toggle_task_status m i).1 n
      cases hget : get_task_by_id m i with
      | none => simpa [toggle_task_status, hget] using h
      | some t0 =>
          simp only [toggle_task_status, hget]
          exact invN_mutateFirst m n i toggleStatus (fun t => rfl) h

/-- The invariant holds in every state reachable by an operation
sequence. -/
theorem invN_run (ops : List Op) :
    ∀ m n, InvN m n → ∃ n2, n ≤ n2 ∧ InvN (run m ops) n2 := by
  induction ops with
  | nil => intro m n h; exact ⟨n, le_refl n, h⟩
  | cons op ops ih =>
      intro m n h
      obtain ⟨n', hn, h'⟩ := invN_applyOp m n op h
      obtain ⟨n2, hn2, h2⟩ := ih _ n' h'
      exact ⟨n2, le_trans hn hn2, h2⟩

/-- From an invariant-satisfying state, every emitted create id is a
number at least `n`, and the emitted ids are pairwise strictly
increasing. -/
theorem emitted_bounds (ops : List Op) :
    ∀ (m : TodoManager) (n : Int), InvN m n →
      (∀ j ∈ emittedIds m ops, ∃ k : Int, j = Json.num k ∧ n ≤ k)
      ∧ List.Pairwise JsonLt (emittedIds m ops) := by
  induction ops with
  | nil => intro m n _; exact ⟨by simp [emittedIds], by simp [emittedIds]⟩
  | cons op ops ih =>
      intro m n h
      cases op with
      | add title description now =>
          by_cases hc : pyStrip title = ""
          · have happ : applyOp m (Op.add title description now) = m := by
              simp [applyOp, add_task, hc]
            have h2 : (add_task m title description now).2
                = Except.error (PyExc.valueError emptyTitleMsg) := by simp [add_task, hc]
            have hE : emittedIds m (Op.add title description now :: ops)
                = emittedIds m ops := by
              simp [emittedIds, h2, happ]
            rw [hE]
            exact ih m n h
          · obtain ⟨hok, hinv2⟩ := invN_add_success m n title description now h hc
            have hE : emittedIds m (Op.add title description now :: ops)
                = Json.num n :: emittedIds (applyOp m (Op.add title description now)) ops := by
              simp [emittedIds, hok]
            rw [hE]
            obtain ⟨ihb, ihp⟩ := ih (applyOp m (Op.add title description now)) (n + 1) hinv2
            constructor
            · intro j hj
              rcases List.mem_cons.mp hj with hj | hj
              · exact ⟨n, hj, le_refl n⟩
              · obtain ⟨k, hk, hle⟩ := ihb j hj
                exact ⟨k, hk, by omega⟩
            · refine List.Pairwise.cons ?_ ihp
              intro j hj
              obtain ⟨k, hk, hle⟩ := ihb j hj
              subst hk
              simp only [JsonLt, jsonLtB, decide_eq_true_eq]
              omega
      | update i tt dd ss =>
          have hE : emittedIds m (Op.update i tt dd ss :: ops)
              = emittedIds (applyOp m (Op.update i tt dd ss)) ops := by simp [emittedIds]
          obtain ⟨n', hn, hinv2⟩ := invN_applyOp m n (Op.update i tt dd ss) h
          obtain ⟨ihb, ihp⟩ := ih _ n' hinv2
          rw [hE]
          refine ⟨fun j hj => ?_, ihp⟩
          obtain ⟨k, hk, hle⟩ := ihb j hj
          exact ⟨k, hk, by omega⟩
      | delete i =>
          have hE : emittedIds m (Op.delete i :: ops)
              = emittedIds (applyOp m (Op.delete i)) ops := by simp [emittedIds]
          obtain ⟨n', hn, hinv2⟩ := invN_applyOp m n (Op.delete i) h
          obtain ⟨ihb, ihp⟩ := ih _ n' hinv2
          rw [hE]
          refine ⟨fun j hj => ?_, ihp⟩
          obtain ⟨k, hk, hle⟩ := ihb j hj
          exact ⟨k, hk, by omega⟩
      | toggle i =>
          have hE : emittedIds m (Op.toggle i :: ops)
              = emittedIds (applyOp m (Op.toggle i)) ops := by simp [emittedIds]
          obtain ⟨n', hn, hinv2⟩ := invN_applyOp m n (Op.toggle i) h
          obtain ⟨ihb, ihp⟩ := ih _ n' hinv2
          rw [hE]
          refine ⟨fun j hj => ?_, ihp⟩
          obtain ⟨k, hk, hle⟩ := ihb j hj
          exact ⟨k, hk, by omega⟩

/-- C3, counterexample: `load_tasks` trusts the stored `next_id`
verbatim, so loading the parseable file `c3FS` — task id 5,
`next_id = 1` — succeeds and produces a store whose `next_id` is not
strictly greater than a present id, refuting the claim for states
produced by loading a parseable storage file. -/
theorem load_violates_next_id_invariant :
    (load_tasks c3FS (freshManager "tasks.json")).2 = Except.ok ()
    ∧ c3Loaded.next_id = Json.num 1
    ∧ c3Loaded.tasks.map Task.id = [Json.num 5]
    ∧ ¬ JsonLt (Json.num 5) c3Loaded.next_id :=
  ⟨rfl, rfl, rfl, by decide⟩

/-- C3, amended: in every state reachable from a state satisfying the
id-counter invariant (in particular the fresh-start state) by any
sequence of create, update, delete and toggle operations, `next_id`
remains a number strictly greater than every task id, and the ids of
the tasks returned by successful creates are pairwise strictly
increasing — hence strictly increasing in order of creation and never
repeated, even across interleaved deletes; `load_tasks`, however,
stores the `next_id` of a parseable file verbatim, so a loaded state
need not satisfy the invariant. -/
theorem create_ids_strictly_increasing (m : TodoManager) (n : Int) (ops : List Op)
    (h : InvN m n) :
    List.Pairwise JsonLt (emittedIds m ops)
    ∧ ∃ n2, n ≤ n2 ∧ InvN (run m ops) n2 :=
  ⟨(emitted_bounds ops m n h).2, invN_run ops m n h⟩

/-- C3, witness: the amended theorem applied to the fresh store and the
scenario of the specification — two creates, a delete of task 1, then
another create. -/
theorem create_ids_strictly_increasing_witness :
    InvN (freshManager "tasks.json") 1
    ∧ List.Pairwise JsonLt (emittedIds (freshManager "tasks.json")
        [Op.add "Buy milk" "" "t1", Op.add "Write report" "due Friday" "t2",
         Op.delete 1, Op.add "Call bank" "" "t3"]) := by
  have hInv : InvN (freshManager "tasks.json") 1 := ⟨rfl, by simp [freshManager]⟩
  exact ⟨hInv, (create_ids_strictly_increasing (freshManager "tasks.json") 1 _ hInv).1⟩

end TodoApp
